import Mathlib

/-!
Verification development for the Cloud Shell puzzle-search coordinator
(`bitcoin_puzzle_coordinator.py`).

Modelling conventions:
* Python integers are `Int`; Python floor division `//` is `Int.fdiv`
  and Python `%` with a positive modulus is `Int.emod` (both agree with
  Python's semantics for the divisor signs that occur here).
* Python's built-in string `hash` is seed-randomized per process run but
  fixed within a run; it is modelled as an arbitrary fixed parameter
  `h : String → Int`.
* `CloudShellInstance.start_range` / `end_range` hold hex strings in the
  source (`""` when unset); since `hex` is injective on the stored values
  we model them as `Option Int` (`none` for unset).
* `keys_per_second` is a Python float; the values reached in the claims
  are exact small decimals, modelled as `ℚ`.
* Remote-operation outcomes (subprocess results, exceptions) are modelled
  as explicit outcome parameters to the lifecycle step functions.
-/

namespace Coordinator

/-- Worker status strings used by the source:
"inactive", "connected", "running", "stopped", "error". -/
inductive Status where
  | inactive
  | connected
  | running
  | stopped
  | error
deriving DecidableEq, Repr

/-- Embedding of the `CloudShellInstance` dataclass (ssh client, process id
and the wall-clock `last_update` field are omitted: no claim concerns them). -/
structure CloudShellInstance where
  name : String
  project_id : String
  zone : String
  username : String
  status : Status := .inactive
  start_range : Option Int := none
  end_range : Option Int := none
  keys_per_second : ℚ := 0
  total_keys_checked : Int := 0
  errors : List String := []
deriving DecidableEq, Repr

/-- Core of `RangeManager.get_range_for_instance`: the numeric
`(start, end)` pair stored into `assigned_ranges` (the function returns the
same pair hex-encoded). `h` models Python's `hash`. -/
def get_range_for_instance (h : String → Int) (total_start total_end : Int)
    (instance_name : String) (num_instances : Int) : Int × Int :=
  let total_range := total_end - total_start
  let range_size := Int.fdiv total_range num_instances
  let instance_hash := Int.emod (h instance_name) num_instances
  let start := total_start + instance_hash * range_size
  let endv := start + range_size - 1
  if instance_hash = num_instances - 1 then (start, total_end) else (start, endv)

/-- Hash function with every name colliding on ordinal 0 — one of the
possible behaviours of Python's seed-randomized `hash` modulo a worker
count. -/
def h0 : String → Int := fun _ => 0

/-- C1: evaluation of the assignment at a failing input: with two distinct
workers whose hashes collide modulo the worker count 2 and total interval
[0, 9], both workers receive the same sub-interval [0, 3]; the two assigned
sub-intervals overlap completely and their union omits [4, 9], so the
claimed disjointness and exact coverage both fail. -/
theorem range_assignment_collision_eval :
    get_range_for_instance h0 0 9 "worker-a" 2 = (0, 3)
    ∧ get_range_for_instance h0 0 9 "worker-b" 2 = (0, 3)
    ∧ (3 : Int) < 9 := by
  decide

/-- Helper: subtracting one from an integer not divisible by a positive `N`
does not change the Euclidean quotient by `N`. -/
lemma ediv_pred_of_not_dvd {T N : Int} (hN : 0 < N) (hnd : ¬ N ∣ T) :
    (T - 1) / N = T / N := by
  have hr0 : T % N ≠ 0 := fun hz => hnd (Int.dvd_of_emod_eq_zero hz)
  have hr1 : 0 ≤ T % N := Int.emod_nonneg T (ne_of_gt hN)
  have hr2 : T % N < N := Int.emod_lt_of_pos T hN
  have hdecomp : T - 1 = (T % N - 1) + (T / N) * N := by
    have := Int.ediv_add_emod T N
    linarith
  rw [hdecomp, Int.add_mul_ediv_right _ _ (ne_of_gt hN)]
  have hzero : (T % N - 1) / N = 0 := by
    apply Int.ediv_eq_zero_of_lt <;> omega
  omega

lemma fdiv_eq_ediv_of_pos {a N : Int} (hN : 0 < N) : Int.fdiv a N = a / N :=
  Int.fdiv_eq_ediv a (le_of_lt hN)

/-- C2: when `(E - S + 1)` is not evenly divisible by the worker count `N`,
every ordinal except the last is assigned a sub-interval of size exactly
`⌊(E - S + 1) / N⌋`, and the last ordinal's sub-interval ends at `E` and has
size `⌊(E - S + 1) / N⌋` plus the remainder — only it absorbs the
remainder. -/
theorem remainder_absorption (h : String → Int) (S E N : Int) (name : String)
    (hN : 1 ≤ N) (hnd : ¬ N ∣ (E - S + 1)) :
    (Int.emod (h name) N ≠ N - 1 →
      (get_range_for_instance h S E name N).2
        - (get_range_for_instance h S E name N).1 + 1 = (E - S + 1) / N)
    ∧ (Int.emod (h name) N = N - 1 →
      (get_range_for_instance h S E name N).2 = E
      ∧ (get_range_for_instance h S E name N).2
          - (get_range_for_instance h S E name N).1 + 1
          = (E - S + 1) / N + (E - S + 1) % N) := by
  have hNpos : 0 < N := hN
  have hsize : Int.fdiv (E - S) N = (E - S + 1) / N := by
    rw [fdiv_eq_ediv_of_pos hNpos]
    have := ediv_pred_of_not_dvd hNpos hnd (T := E - S + 1)
    simpa using this
  constructor
  · intro hne
    simp only [get_range_for_instance, if_neg hne]
    rw [hsize]; ring
  · intro heq
    have h2 : (get_range_for_instance h S E name N).2 = E := by
      simp only [get_range_for_instance, if_pos heq]
    have h1 : (get_range_for_instance h S E name N).1
        = S + (N - 1) * Int.fdiv (E - S) N := by
      simp only [get_range_for_instance, if_pos heq, heq, eq_self_iff_true,
        if_true]
    refine ⟨h2, ?_⟩
    rw [h1, h2, hsize]
    have hdm := Int.ediv_add_emod (E - S + 1) N
    linear_combination -hdm

/-- C2 witness: interval [0, 9] with 3 workers (total 10 keys, remainder 1):
a worker at ordinal 0 gets a sub-interval of size `⌊10/3⌋ = 3`. -/
theorem remainder_absorption_witness :
    (Int.emod (h0 "a") 3 ≠ 3 - 1 →
      (get_range_for_instance h0 0 9 "a" 3).2
        - (get_range_for_instance h0 0 9 "a" 3).1 + 1 = ((9 : Int) - 0 + 1) / 3)
    ∧ (Int.emod (h0 "a") 3 = 3 - 1 →
      (get_range_for_instance h0 0 9 "a" 3).2 = 9
      ∧ (get_range_for_instance h0 0 9 "a" 3).2
          - (get_range_for_instance h0 0 9 "a" 3).1 + 1
          = ((9 : Int) - 0 + 1) / 3 + ((9 : Int) - 0 + 1) % 3) :=
  remainder_absorption h0 0 9 3 "a" (by decide) (by decide)

/-- C3: for the total interval
[0x20000000000000000, 0x3ffffffffffffffff] split among 4 workers, a worker
at ordinal 0 is assigned exactly
[0x20000000000000000, 0x27ffffffffffffffe], and a worker at ordinal 3 is
assigned a sub-interval whose upper bound is 0x3ffffffffffffffff. -/
theorem scenario1_four_workers (h : String → Int) (nameA nameB : String)
    (hA : Int.emod (h nameA) 4 = 0) (hB : Int.emod (h nameB) 4 = 3) :
    get_range_for_instance h 0x20000000000000000 0x3ffffffffffffffff nameA 4
      = (0x20000000000000000, 0x27ffffffffffffffe)
    ∧ (get_range_for_instance h 0x20000000000000000 0x3ffffffffffffffff nameB 4).2
      = 0x3ffffffffffffffff := by
  constructor
  · simp only [get_range_for_instance, hA]
    decide
  · simp only [get_range_for_instance, hB]
    decide

/-- C3 witness: a concrete hash assignment placing worker "A" at ordinal 0
and worker "B" at ordinal 3. -/
theorem scenario1_four_workers_witness :
    get_range_for_instance (fun s => if s = "A" then 0 else 3)
      0x20000000000000000 0x3ffffffffffffffff "A" 4
      = (0x20000000000000000, 0x27ffffffffffffffe)
    ∧ (get_range_for_instance (fun s => if s = "A" then 0 else 3)
        0x20000000000000000 0x3ffffffffffffffff "B" 4).2
      = 0x3ffffffffffffffff :=
  scenario1_four_workers (fun s => if s = "A" then 0 else 3) "A" "B"
    (by decide) (by decide)

/-- Outcome of `connect_to_instance`'s remote call: a zero exit code, a
non-zero exit code, or a raised exception carrying a message. -/
inductive ConnectResult where
  | ok
  | cmdFail
  | exn (msg : String)
deriving DecidableEq, Repr

/-- Embedding of `CloudShellCoordinator.connect_to_instance`'s effect on the
instance record: success sets status "connected"; a non-zero exit code only
logs; an exception appends to the error list (status unchanged). -/
def connect_to_instance (res : ConnectResult) (inst : CloudShellInstance) :
    CloudShellInstance :=
  match res with
  | .ok => { inst with status := .connected }
  | .cmdFail => inst
  | .exn m => { inst with errors := inst.errors ++ ["Connexion error: " ++ m] }

/-- Effect of `create_config_for_instance` on the instance record: it stores
the range freshly computed by `get_range_for_instance` for the current fleet
size into `start_range` / `end_range`. -/
def set_instance_range (h : String → Int) (S E num_instances : Int)
    (inst : CloudShellInstance) : CloudShellInstance :=
  let r := get_range_for_instance h S E inst.name num_instances
  { inst with start_range := some r.1, end_range := some r.2 }

/-- Embedding of `start_solver_on_instance`: the config (with the range) is
created first; if all remote commands succeed the status becomes "running",
otherwise the status is left unchanged and no error is appended. -/
def start_solver_on_instance (h : String → Int) (S E num_instances : Int)
    (cmds_ok : Bool) (inst : CloudShellInstance) : CloudShellInstance :=
  let inst1 := set_instance_range h S E num_instances inst
  if cmds_ok then { inst1 with status := .running } else inst1

/-- Per-instance body of `start_coordination`'s start-up loop:
`connect`; on success `upload_files_to_instance` (which never mutates the
record); on upload success `start_solver_on_instance`. -/
def startup_instance (h : String → Int) (S E num_instances : Int)
    (c : ConnectResult) (upload_ok start_ok : Bool)
    (inst : CloudShellInstance) : CloudShellInstance :=
  match c with
  | .ok =>
    let i1 := { inst with status := Status.connected }
    if upload_ok then start_solver_on_instance h S E num_instances start_ok i1
    else i1
  | .cmdFail => inst
  | .exn m => { inst with errors := inst.errors ++ ["Connexion error: " ++ m] }

/-- Per-instance body of `restart_failed_instances`: only instances whose
status is "stopped" or "error" are re-attempted (connect, then start the
solver — note: no re-upload on this path). -/
def restart_instance (h : String → Int) (S E num_instances : Int)
    (c : ConnectResult) (start_ok : Bool) (inst : CloudShellInstance) :
    CloudShellInstance :=
  if inst.status = .stopped ∨ inst.status = .error then
    match c with
    | .ok =>
      start_solver_on_instance h S E num_instances start_ok
        { inst with status := Status.connected }
    | .cmdFail => inst
    | .exn m => { inst with errors := inst.errors ++ ["Connexion error: " ++ m] }
  else inst

/-- Fueled worker for Python `s.split(sep)` over character lists: scan left
to right, cutting at each leftmost non-overlapping occurrence of `sep`. The
fuel (one unit per consumed character) makes the recursion structural so
that terms evaluate inside the kernel. -/
def splitOnCharsAux (sep : List Char) : Nat → List Char → List Char →
    List (List Char)
  | 0, acc, rest => [acc.reverse ++ rest]
  | _ + 1, acc, [] => [acc.reverse]
  | fuel + 1, acc, c :: cs =>
    if sep.isPrefixOf (c :: cs) then
      acc.reverse :: splitOnCharsAux sep fuel [] (List.drop sep.length (c :: cs))
    else splitOnCharsAux sep fuel (c :: acc) cs

/-- Python `s.split(sep)` for a nonempty separator string. -/
def pySplitOnStr (s sep : String) : List String :=
  (splitOnCharsAux sep.data (s.data.length + 1) [] s.data).map String.mk

/-- Python `pat in s` for a nonempty pattern `pat`. -/
def strContains (s pat : String) : Bool :=
  2 ≤ (pySplitOnStr s pat).length

/-- Python `s.strip()`: drop leading and trailing whitespace. -/
def pyStrip (s : String) : String :=
  String.mk
    (((s.data.dropWhile Char.isWhitespace).reverse.dropWhile
      Char.isWhitespace).reverse)

/-- Worker for Python `s.split()`: cut at every whitespace character. -/
def splitWsAux : List Char → List Char → List (List Char)
  | acc, [] => [acc.reverse]
  | acc, c :: cs =>
    if c.isWhitespace then acc.reverse :: splitWsAux [] cs
    else splitWsAux (c :: acc) cs

/-- Python `str.split()` with no argument: split on whitespace runs,
discarding empty pieces. -/
def pySplitWs (s : String) : List String :=
  ((splitWsAux [] s.data).map String.mk).filter (fun t => t ≠ "")

/-- Base-10 value of a digit character list. -/
def digitsToNat (l : List Char) : Nat :=
  l.foldl (fun a c => 10 * a + (c.toNat - 48)) 0

/-- Python `int(tok)` on a whitespace-free token: an optional sign followed
by at least one decimal digit, else a `ValueError`. -/
def pyParseInt (s : String) : Option Int :=
  let core : List Char → Option Nat := fun t =>
    if t ≠ [] ∧ t.all Char.isDigit then some (digitsToNat t) else none
  match s.data with
  | '-' :: rest => (core rest).map (fun nn => -(nn : Int))
  | '+' :: rest => (core rest).map (fun nn => (nn : Int))
  | l => (core l).map (fun nn => (nn : Int))

/-- Python `float(tok)` on a whitespace-free token, restricted to plain
decimals (optional sign, digits, optional fractional part); the exotic
accepted forms (exponents, inf, nan) never occur in the solver's logs. The
value is modelled exactly as a rational. -/
def pyParseFloat (s : String) : Option ℚ :=
  let body : List Char → Option ℚ := fun t =>
    match splitOnCharsAux ['.'] (t.length + 1) [] t with
    | [a] =>
      if a ≠ [] ∧ a.all Char.isDigit then some ((digitsToNat a : ℚ))
      else none
    | [a, b] =>
      if (a ≠ [] ∨ b ≠ []) ∧ a.all Char.isDigit ∧ b.all Char.isDigit then
        some ((digitsToNat a : ℚ) + (digitsToNat b : ℚ) / (10 ^ b.length))
      else none
    | _ => none
  match s.data with
  | '-' :: rest => (body rest).map (fun q => -q)
  | '+' :: rest => body rest
  | l => body l

/-- `part.split(label)[1].strip().split()[0]`: the first whitespace-delimited
token after the first occurrence of `label` in `part` (up to the next
occurrence), `none` when an `IndexError` would be raised. -/
def tokenAfter (label part : String) : Option String :=
  ((pySplitOnStr part label).get? 1).bind
    (fun r => (pySplitWs (pyStrip r)).head?)

/-- One iteration of `parse_statistics`'s inner loop over the `|`-separated
segments of the matched line: a segment containing `Total:` updates the
keys-checked counter, else a segment containing `Vitesse:` updates the
throughput; `none` models a raised exception (the update of the failing
segment does not happen). -/
def processPart (inst : CloudShellInstance) (part : String) :
    Option CloudShellInstance :=
  if strContains part "Total:" then
    match tokenAfter "Total:" part with
    | none => none
    | some tok =>
      match pyParseInt tok with
      | none => none
      | some v => some { inst with total_keys_checked := v }
  else if strContains part "Vitesse:" then
    match tokenAfter "Vitesse:" part with
    | none => none
    | some tok =>
      match pyParseFloat tok with
      | none => none
      | some v => some { inst with keys_per_second := v }
  else some inst

/-- Fold of `processPart` over the segments; an exception aborts the loop
keeping every update already applied (the whole loop body sits in one
`try`). -/
def processParts (inst : CloudShellInstance) : List String → CloudShellInstance
  | [] => inst
  | p :: ps =>
    match processPart inst p with
    | none => inst
    | some i => processParts i ps

/-- A line is recognized when it contains both a `Total:` and a `Vitesse:`
field. -/
def matchLine (l : String) : Bool :=
  strContains l "Total:" && strContains l "Vitesse:"

/-- Embedding of `parse_statistics` on the already-split lines of the log
tail: the first recognized line is processed segment by segment and scanning
stops there (`break`, or the caught exception). -/
def parse_lines (inst : CloudShellInstance) (lines : List String) :
    CloudShellInstance :=
  match lines.find? matchLine with
  | none => inst
  | some l => processParts inst (pySplitOnStr l "|")

/-- Embedding of `CloudShellCoordinator.parse_statistics`. -/
def parse_statistics (inst : CloudShellInstance) (log_output : String) :
    CloudShellInstance :=
  parse_lines inst (pySplitOnStr log_output "\n")

/-- Outcome of `check_instance_status`'s remote poll: the remote command
printed `NOT_RUNNING`, or the process is alive and the given log tail was
fetched, or an exception was raised. -/
inductive HealthResult where
  | notRunning
  | runningWith (log : String)
  | exn (msg : String)
deriving DecidableEq, Repr

/-- Embedding of `CloudShellCoordinator.check_instance_status` (the
`last_update` timestamp write is omitted): `NOT_RUNNING` sets "stopped";
otherwise the status becomes "running" and the log tail is parsed; an
exception sets "error" and appends to the error list. -/
def check_instance_status (r : HealthResult) (inst : CloudShellInstance) :
    CloudShellInstance :=
  match r with
  | .notRunning => { inst with status := .stopped }
  | .runningWith log => parse_statistics { inst with status := .running } log
  | .exn m =>
    { inst with status := .error,
                errors := inst.errors ++ ["Status check error: " ++ m] }

lemma find?_append_of_forall_neg (p : String → Bool) (pre : List String)
    (L : String) (rest : List String) (hpre : ∀ l ∈ pre, p l = false)
    (hL : p L = true) : List.find? p (pre ++ L :: rest) = some L := by
  induction pre with
  | nil => simp [List.find?_cons, hL]
  | cons a as ih =>
    have ha : p a = false := hpre a (by simp)
    simp only [List.cons_append, List.find?_cons, ha]
    exact ih (fun l hl => hpre l (by simp [hl]))

/-- Segments containing neither label leave the record untouched. -/
lemma processPart_neutral (inst : CloudShellInstance) (p : String)
    (h1 : strContains p "Total:" = false)
    (h2 : strContains p "Vitesse:" = false) :
    processPart inst p = some inst := by
  simp [processPart, h1, h2]

lemma processParts_append_neutral (inst : CloudShellInstance)
    (A rest : List String)
    (hA : ∀ p ∈ A, strContains p "Total:" = false
      ∧ strContains p "Vitesse:" = false) :
    processParts inst (A ++ rest) = processParts inst rest := by
  induction A with
  | nil => rfl
  | cons a as ih =>
    have ha := hA a (by simp)
    simp only [List.cons_append, processParts,
      processPart_neutral inst a ha.1 ha.2]
    exact ih (fun p hp => hA p (by simp [hp]))

lemma processParts_neutral (inst : CloudShellInstance) (C : List String)
    (hC : ∀ p ∈ C, strContains p "Total:" = false
      ∧ strContains p "Vitesse:" = false) :
    processParts inst C = inst := by
  have := processParts_append_neutral inst C [] hC
  simpa using this

/-- C7: on a log tail whose lines are a block of unrecognized lines, then a
recognized line whose `|`-segments consist of a unique `Total:` segment
followed by a unique `Vitesse:` segment among label-free segments, the
parse sets the keys-checked counter to the integer value of the first
whitespace-delimited token after `Total:` and the throughput to the
floating-point value of the first whitespace-delimited token after
`Vitesse:`, and every later line is ignored (first match wins). -/
theorem parse_statistics_first_match (inst : CloudShellInstance)
    (pre rest : List String) (L : String) (A B C : List String)
    (pT pV tokT tokV : String) (t : Int) (v : ℚ)
    (hpre : ∀ l ∈ pre, matchLine l = false)
    (hL : matchLine L = true)
    (hsplit : pySplitOnStr L "|" = A ++ pT :: (B ++ pV :: C))
    (hA : ∀ p ∈ A, strContains p "Total:" = false
      ∧ strContains p "Vitesse:" = false)
    (hB : ∀ p ∈ B, strContains p "Total:" = false
      ∧ strContains p "Vitesse:" = false)
    (hC : ∀ p ∈ C, strContains p "Total:" = false
      ∧ strContains p "Vitesse:" = false)
    (hpT : strContains pT "Total:" = true)
    (hpVnoT : strContains pV "Total:" = false)
    (hpV : strContains pV "Vitesse:" = true)
    (htokT : tokenAfter "Total:" pT = some tokT)
    (hT : pyParseInt tokT = some t)
    (htokV : tokenAfter "Vitesse:" pV = some tokV)
    (hV : pyParseFloat tokV = some v) :
    parse_lines inst (pre ++ L :: rest)
      = { inst with total_keys_checked := t, keys_per_second := v } := by
  have hfind := find?_append_of_forall_neg matchLine pre L rest hpre hL
  have hstepT : processPart inst pT
      = some { inst with total_keys_checked := t } := by
    simp [processPart, hpT, htokT, hT]
  have hstepV : processPart { inst with total_keys_checked := t } pV
      = some { inst with total_keys_checked := t, keys_per_second := v } := by
    simp [processPart, hpVnoT, hpV, htokV, hV]
  simp only [parse_lines, hfind, hsplit,
    processParts_append_neutral _ _ _ hA, processParts, hstepT,
    processParts_append_neutral _ _ _ hB, hstepV,
    processParts_neutral _ _ hC]

/-- C7 witness: the scenario line
"Stats 2024 | Total: 123456789 | Vitesse: 4521 k/s" parses to
keys-checked 123456789 and throughput 4521. -/
theorem parse_statistics_first_match_witness :
    parse_lines
      { name := "w", project_id := "p", zone := "z", username := "u" }
      ["Stats 2024 | Total: 123456789 | Vitesse: 4521 k/s",
       "run | Total: 1 | Vitesse: 2 k/s"]
      = { name := "w", project_id := "p", zone := "z", username := "u",
          total_keys_checked := 123456789, keys_per_second := 4521 } :=
  parse_statistics_first_match
    { name := "w", project_id := "p", zone := "z", username := "u" }
    [] ["run | Total: 1 | Vitesse: 2 k/s"]
    "Stats 2024 | Total: 123456789 | Vitesse: 4521 k/s"
    ["Stats 2024 "] [] [] " Total: 123456789 " " Vitesse: 4521 k/s"
    "123456789" "4521" 123456789 4521
    (by decide) (by decide) (by decide) (by decide) (by decide) (by decide)
    (by decide) (by decide) (by decide) (by decide) (by decide)
    (by decide) (by decide)

lemma processPart_eq_some_fields (inst : CloudShellInstance) (p : String)
    (i : CloudShellInstance) (hp : processPart inst p = some i) :
    i.status = inst.status ∧ i.errors = inst.errors
    ∧ i.start_range = inst.start_range ∧ i.end_range = inst.end_range := by
  unfold processPart at hp
  split at hp
  · split at hp
    · exact absurd hp (by simp)
    · split at hp
      · exact absurd hp (by simp)
      · have hrec := Option.some.inj hp
        rw [← hrec]
        exact ⟨rfl, rfl, rfl, rfl⟩
  · split at hp
    · split at hp
      · exact absurd hp (by simp)
      · split at hp
        · exact absurd hp (by simp)
        · have hrec := Option.some.inj hp
          rw [← hrec]
          exact ⟨rfl, rfl, rfl, rfl⟩
    · have hrec := Option.some.inj hp
      rw [← hrec]
      exact ⟨rfl, rfl, rfl, rfl⟩

lemma processParts_fields (inst : CloudShellInstance) (parts : List String) :
    (processParts inst parts).status = inst.status
    ∧ (processParts inst parts).errors = inst.errors
    ∧ (processParts inst parts).start_range = inst.start_range
    ∧ (processParts inst parts).end_range = inst.end_range := by
  induction parts generalizing inst with
  | nil => exact ⟨rfl, rfl, rfl, rfl⟩
  | cons p ps ih =>
    simp only [processParts]
    cases hp : processPart inst p with
    | none => exact ⟨rfl, rfl, rfl, rfl⟩
    | some i =>
      have hf := processPart_eq_some_fields inst p i hp
      have hr := ih i
      exact ⟨hf.1 ▸ hr.1, hf.2.1 ▸ hr.2.1, hf.2.2.1 ▸ hr.2.2.1,
        hf.2.2.2 ▸ hr.2.2.2⟩

/-- C8 (amended): if no line of the tail contains both labels the parse is
the identity on the record; and whatever the tail is, the parse never
touches status, error log or range assignment (parse failures are
non-fatal) — but a mid-line extraction failure keeps the updates already
applied, so the metrics themselves are not atomic (see the
counterexample). -/
theorem parse_statistics_no_match_and_nonfatal (inst : CloudShellInstance)
    (lines : List String) :
    ((∀ l ∈ lines, matchLine l = false) → parse_lines inst lines = inst)
    ∧ (parse_lines inst lines).status = inst.status
    ∧ (parse_lines inst lines).errors = inst.errors
    ∧ (parse_lines inst lines).start_range = inst.start_range
    ∧ (parse_lines inst lines).end_range = inst.end_range := by
  constructor
  · intro hnone
    have : lines.find? matchLine = none := by
      rw [List.find?_eq_none]
      intro x hx
      simp [hnone x hx]
    simp [parse_lines, this]
  · unfold parse_lines
    cases hf : lines.find? matchLine with
    | none => exact ⟨rfl, rfl, rfl, rfl⟩
    | some l => exact processParts_fields inst (pySplitOnStr l "|")

/-- C8 witness: a tail with no recognized line leaves the record unchanged,
and the field-preservation facts hold on it. -/
theorem parse_statistics_no_match_and_nonfatal_witness :
    parse_lines
      { name := "w", project_id := "p", zone := "z", username := "u" }
      ["hello", "Total: 5 only"]
      = { name := "w", project_id := "p", zone := "z", username := "u" } :=
  (parse_statistics_no_match_and_nonfatal
    { name := "w", project_id := "p", zone := "z", username := "u" }
    ["hello", "Total: 5 only"]).1 (by decide)

/-- C8 counterexample: on the malformed tail
"run | Total: 5 | Vitesse: xyz" (throughput token unparseable) the code
performs a partial update: the keys-checked counter is changed to 5 while
the throughput stays 0, so the metrics are not left completely unchanged. -/
theorem parse_statistics_partial_update :
    (parse_lines
      { name := "w", project_id := "p", zone := "z", username := "u" }
      ["run | Total: 5 | Vitesse: xyz"]).total_keys_checked = 5
    ∧ (parse_lines
      { name := "w", project_id := "p", zone := "z", username := "u" }
      ["run | Total: 5 | Vitesse: xyz"]).keys_per_second = 0
    ∧ parse_lines
      { name := "w", project_id := "p", zone := "z", username := "u" }
      ["run | Total: 5 | Vitesse: xyz"]
      ≠ { name := "w", project_id := "p", zone := "z", username := "u" } := by
  decide

/-- Per-worker lifecycle events: one pass of `start_coordination`'s start-up
body, one pass of `restart_failed_instances`'s body, or one health check
from `health_check_loop`. -/
inductive WEvent where
  | startup (c : ConnectResult) (upload_ok start_ok : Bool)
  | restart (c : ConnectResult) (start_ok : Bool)
  | health (r : HealthResult)
deriving DecidableEq, Repr

/-- Effect of one lifecycle event on a worker record. -/
def wstep (h : String → Int) (S E N : Int) (inst : CloudShellInstance) :
    WEvent → CloudShellInstance
  | .startup c u s1 => startup_instance h S E N c u s1 inst
  | .restart c s1 => restart_instance h S E N c s1 inst
  | .health r => check_instance_status r inst

/-- Guard of `health_check_loop`: a health check is only submitted for a
worker whose status is not "inactive" (and no event ever sets the status
back to "inactive", so the guard holds when the check runs). The other
events carry their own guards inside their step functions. -/
def enabledEvent (inst : CloudShellInstance) : WEvent → Bool
  | .health _ =>
    match inst.status with
    | .inactive => false
    | _ => true
  | _ => true

/-- A trace is valid when every event is enabled in the state it fires
from. -/
def validTrace (h : String → Int) (S E N : Int) (inst : CloudShellInstance) :
    List WEvent → Bool
  | [] => true
  | e :: es =>
    enabledEvent inst e && validTrace h S E N (wstep h S E N inst e) es

/-- Statuses observed after each event of a trace. -/
def traceStatuses (h : String → Int) (S E N : Int)
    (inst : CloudShellInstance) : List WEvent → List Status
  | [] => []
  | e :: es =>
    (wstep h S E N inst e).status
      :: traceStatuses h S E N (wstep h S E N inst e) es

/-- Fresh worker record as created by `add_instance`. -/
def instW : CloudShellInstance :=
  { name := "w", project_id := "p", zone := "z", username := "u" }

/-- C4 counterexample: a worker whose connect succeeded but whose upload
failed sits in "connected"; the next health check finds no solver process
and marks it "stopped". The trace is valid, "running" is never observed
(the initial status included), yet "stopped" is reached — refuting the
claim that a worker never observed Running is never assigned Stopped. -/
theorem connected_worker_marked_stopped :
    validTrace h0 0 9 1 instW
      [.startup .ok false false, .health .notRunning] = true
    ∧ Status.running ∉ instW.status ::
        traceStatuses h0 0 9 1 instW
          [.startup .ok false false, .health .notRunning]
    ∧ Status.stopped ∈ traceStatuses h0 0 9 1 instW
        [.startup .ok false false, .health .notRunning] := by
  decide

lemma trace_all_inactive (h : String → Int) (S E N : Int)
    (es : List WEvent) :
    ∀ inst : CloudShellInstance, inst.status = .inactive →
    validTrace h S E N inst es = true →
    Status.connected ∉ traceStatuses h S E N inst es →
    Status.running ∉ traceStatuses h S E N inst es →
    ∀ st ∈ traceStatuses h S E N inst es, st = .inactive := by
  induction es with
  | nil => intro inst _ _ _ _ st hst; simp [traceStatuses] at hst
  | cons e es ih =>
    intro inst hin hval hnc hnr
    have hval2 : enabledEvent inst e = true
        ∧ validTrace h S E N (wstep h S E N inst e) es = true := by
      simpa [validTrace, Bool.and_eq_true] using hval
    simp only [traceStatuses, List.mem_cons, not_or] at hnc hnr
    have hstep : (wstep h S E N inst e).status = .inactive := by
      cases e with
      | startup c u s1 =>
        cases c with
        | ok =>
          exfalso
          cases u with
          | false =>
            exact hnc.1 (by
              simp [wstep, startup_instance])
          | true =>
            cases s1 with
            | false =>
              exact hnc.1 (by
                simp [wstep, startup_instance, start_solver_on_instance,
                  set_instance_range])
            | true =>
              exact hnr.1 (by
                simp [wstep, startup_instance, start_solver_on_instance,
                  set_instance_range])
        | cmdFail => simpa [wstep, startup_instance] using hin
        | exn m => simpa [wstep, startup_instance] using hin
      | restart c s1 =>
        simp [wstep, restart_instance, hin]
      | health r =>
        exfalso
        have := hval2.1
        simp [enabledEvent, hin] at this
    intro st hst
    simp only [traceStatuses, List.mem_cons] at hst
    cases hst with
    | inl hhead => rw [hhead, hstep]
    | inr htail =>
      exact ih (wstep h S E N inst e) hstep hval2.2 hnc.2 hnr.2 st htail

/-- C4 (amended): a worker starting at "inactive" that is never observed in
the "connected" state nor in the "running" state never reaches "stopped":
every status it is ever assigned is "inactive" (only a successful connect
leaves "inactive", health checks are only submitted for non-inactive
workers, and the restart sweep skips workers that are not
"stopped"/"error"). A worker observed merely "connected" (Connecting /
Deploying) can, however, be marked "stopped" — see the counterexample. -/
theorem never_connected_never_stopped (h : String → Int) (S E N : Int)
    (inst : CloudShellInstance) (es : List WEvent)
    (hin : inst.status = .inactive)
    (hval : validTrace h S E N inst es = true)
    (hnc : Status.connected ∉ traceStatuses h S E N inst es)
    (hnr : Status.running ∉ traceStatuses h S E N inst es) :
    Status.stopped ∉ traceStatuses h S E N inst es := by
  intro hmem
  have hall := trace_all_inactive h S E N es inst hin hval hnc hnr
    Status.stopped hmem
  exact absurd hall (by decide)

/-- C4 witness: a failed connect attempt followed by a restart sweep pass
leaves the worker "inactive" throughout, and "stopped" indeed never
appears. -/
theorem never_connected_never_stopped_witness :
    Status.stopped ∉ traceStatuses h0 0 9 1 instW
      [.startup .cmdFail false false, .restart .ok true] :=
  never_connected_never_stopped h0 0 9 1 instW
    [.startup .cmdFail false false, .restart .ok true]
    (by decide) (by decide) (by decide) (by decide)

/-- C5: a worker whose stored range is the one `get_range_for_instance`
computes for its name at fleet size `N` (as any previously deployed worker
has) is redeployed by the restart sweep — run at an unchanged fleet size
`N` and within the same process (same `h`) — with exactly the same range:
restart does not change the assignment. -/
theorem restart_preserves_assignment (h : String → Int) (S E N : Int)
    (c : ConnectResult) (start_ok : Bool) (inst : CloudShellInstance)
    (h1 : inst.start_range = some (get_range_for_instance h S E inst.name N).1)
    (h2 : inst.end_range = some (get_range_for_instance h S E inst.name N).2) :
    (restart_instance h S E N c start_ok inst).start_range = inst.start_range
    ∧ (restart_instance h S E N c start_ok inst).end_range = inst.end_range := by
  unfold restart_instance
  by_cases hg : inst.status = .stopped ∨ inst.status = .error
  · rw [if_pos hg]
    cases c with
    | ok =>
      cases start_ok with
      | false =>
        simp [start_solver_on_instance, set_instance_range, h1, h2]
      | true =>
        simp [start_solver_on_instance, set_instance_range, h1, h2]
    | cmdFail => exact ⟨rfl, rfl⟩
    | exn m => exact ⟨rfl, rfl⟩
  · rw [if_neg hg]
    exact ⟨rfl, rfl⟩

/-- Worker record in "stopped" state holding the range that
`get_range_for_instance h0 0 9 _ 2` assigns to its name. -/
def instR : CloudShellInstance :=
  { name := "w", project_id := "p", zone := "z", username := "u",
    status := .stopped, start_range := some 0, end_range := some 3 }

/-- C5 witness: restarting the stopped worker `instR` at unchanged fleet
size 2 redeploys it with its previous range. -/
theorem restart_preserves_assignment_witness :
    (restart_instance h0 0 9 2 .ok true instR).start_range = instR.start_range
    ∧ (restart_instance h0 0 9 2 .ok true instR).end_range
      = instR.end_range :=
  restart_preserves_assignment h0 0 9 2 .ok true instR (by decide) (by decide)

/-- C6 counterexample: a fresh worker whose connect succeeds but whose
upload fails ends the start-up pass in status "connected" — not "error"
(Failed) — and with an empty error log: no error is recorded, refuting the
claim that a partial deploy failure leaves the worker Failed with the error
recorded. -/
theorem deploy_partial_failure_not_failed :
    (startup_instance h0 0 9 1 .ok false true instW).status = .connected
    ∧ ¬ (startup_instance h0 0 9 1 .ok false true instW).status = .error
    ∧ (startup_instance h0 0 9 1 .ok false true instW).errors = [] := by
  decide

/-- C6 (amended): in the start-up pass a worker starting from "inactive"
reaches "running" exactly when connect, upload and process start all
succeed; if the connect succeeds but upload or start fails, the worker is
left in "connected" (not "error"), its error log is unchanged, its range
fields are untouched on an upload failure, and on a start failure they hold
the freshly recomputed assignment (so the assignment is retained for
retry). -/
theorem startup_running_iff_all_succeed (h : String → Int) (S E N : Int)
    (c : ConnectResult) (u s1 : Bool) (inst : CloudShellInstance)
    (hin : inst.status = .inactive) :
    ((startup_instance h S E N c u s1 inst).status = .running
      ↔ (c = .ok ∧ u = true ∧ s1 = true))
    ∧ (c = .ok → (u && s1) = false →
        (startup_instance h S E N c u s1 inst).status = .connected
        ∧ (startup_instance h S E N c u s1 inst).errors = inst.errors)
    ∧ (c = .ok → u = false →
        (startup_instance h S E N c u s1 inst).start_range = inst.start_range
        ∧ (startup_instance h S E N c u s1 inst).end_range = inst.end_range)
    ∧ (c = .ok → u = true →
        (startup_instance h S E N c u s1 inst).start_range
          = some (get_range_for_instance h S E inst.name N).1
        ∧ (startup_instance h S E N c u s1 inst).end_range
          = some (get_range_for_instance h S E inst.name N).2) := by
  cases c with
  | ok =>
    cases u with
    | false =>
      simp [startup_instance]
    | true =>
      cases s1 with
      | false =>
        simp [startup_instance, start_solver_on_instance, set_instance_range]
      | true =>
        simp [startup_instance, start_solver_on_instance, set_instance_range]
  | cmdFail =>
    simp [startup_instance, hin]
  | exn m =>
    simp [startup_instance, hin]

/-- C6 witness: a fully successful start-up pass on a fresh worker reaches
"running". -/
theorem startup_running_iff_all_succeed_witness :
    ((startup_instance h0 0 9 1 .ok true true instW).status = .running
      ↔ (ConnectResult.ok = .ok ∧ true = true ∧ true = true))
    ∧ (ConnectResult.ok = .ok → (true && true) = false →
        (startup_instance h0 0 9 1 .ok true true instW).status = .connected
        ∧ (startup_instance h0 0 9 1 .ok true true instW).errors
          = instW.errors)
    ∧ (ConnectResult.ok = .ok → true = false →
        (startup_instance h0 0 9 1 .ok true true instW).start_range
          = instW.start_range
        ∧ (startup_instance h0 0 9 1 .ok true true instW).end_range
          = instW.end_range)
    ∧ (ConnectResult.ok = .ok → true = true →
        (startup_instance h0 0 9 1 .ok true true instW).start_range
          = some (get_range_for_instance h0 0 9 instW.name 1).1
        ∧ (startup_instance h0 0 9 1 .ok true true instW).end_range
          = some (get_range_for_instance h0 0 9 instW.name 1).2) :=
  startup_running_iff_all_succeed h0 0 9 1 .ok true true instW (by decide)

/-- Operations of the coordinator that append to a worker's error log: a
connect attempt that raises, and a status check that raises. -/
inductive ErrorOp where
  | connectErr (msg : String)
  | checkErr (msg : String)
deriving DecidableEq, Repr

/-- Apply a sequence of error-recording operations to a worker record. -/
def applyErrorOps (inst : CloudShellInstance) (ops : List ErrorOp) :
    CloudShellInstance :=
  ops.foldl
    (fun i o =>
      match o with
      | .connectErr m => connect_to_instance (.exn m) i
      | .checkErr m => check_instance_status (.exn m) i)
    inst

lemma applyErrorOps_errors_length (ops : List ErrorOp) :
    ∀ inst : CloudShellInstance,
    (applyErrorOps inst ops).errors.length
      = inst.errors.length + ops.length := by
  induction ops with
  | nil => intro inst; rfl
  | cons o os ih =>
    intro inst
    cases o with
    | connectErr m =>
      have hstep : applyErrorOps inst (ErrorOp.connectErr m :: os)
          = applyErrorOps (connect_to_instance (.exn m) inst) os := rfl
      rw [hstep, ih]
      simp [connect_to_instance]
      omega
    | checkErr m =>
      have hstep : applyErrorOps inst (ErrorOp.checkErr m :: os)
          = applyErrorOps (check_instance_status (.exn m) inst) os := rfl
      rw [hstep, ih]
      simp [check_instance_status]
      omega

/-- C9 counterexample: there is no fixed bound on the length of a worker's
error log — for any candidate bound `B`, a run with `B + 1` failed connects
pushes the log past `B` (the code appends on every failure and never
truncates the stored list). -/
theorem error_log_has_no_cap :
    ¬ ∃ B : Nat, ∀ ops : List ErrorOp,
      (applyErrorOps instW ops).errors.length ≤ B := by
  rintro ⟨B, hB⟩
  have h1 := hB (List.replicate (B + 1) (ErrorOp.connectErr "e"))
  rw [applyErrorOps_errors_length] at h1
  simp [instW] at h1

/-- C9 (amended): the stored error log grows without bound — after any
sequence of error-recording operations its length equals the initial length
plus the number of operations; no cap is applied to the stored list (only
the status display truncates what it shows). -/
theorem error_log_growth (inst : CloudShellInstance) (ops : List ErrorOp) :
    (applyErrorOps inst ops).errors.length
      = inst.errors.length + ops.length :=
  applyErrorOps_errors_length ops inst

/-- Python dict assignment `d[k] = v` on an insertion-ordered association
list: an existing key keeps its position and gets the new value, a new key
is appended. -/
def dictInsert (k : String) (v : CloudShellInstance) :
    List (String × CloudShellInstance) → List (String × CloudShellInstance)
  | [] => [(k, v)]
  | p :: rest => if p.1 = k then (k, v) :: rest else p :: dictInsert k v rest

/-- The fresh record `add_instance` builds (all runtime fields at their
dataclass defaults). -/
def mkCloudShellInstance (name project_id zone username : String) :
    CloudShellInstance :=
  { name := name, project_id := project_id, zone := zone,
    username := username }

/-- Embedding of `CloudShellCoordinator.add_instance`: build a fresh record
(the username argument defaults to the `USER` environment value, modelled by
`env_user`) and assign it into the instances dict under its name. -/
def add_instance (env_user name project_id zone : String)
    (username : Option String)
    (instances : List (String × CloudShellInstance)) :
    List (String × CloudShellInstance) :=
  dictInsert name
    (mkCloudShellInstance name project_id zone (username.getD env_user))
    instances

/-- Python `d[k]` read, as an option. -/
def lookupInst (k : String) (l : List (String × CloudShellInstance)) :
    Option CloudShellInstance :=
  (l.find? (fun p => p.1 == k)).map Prod.snd

lemma dictInsert_length_of_mem (k : String) (v : CloudShellInstance) :
    ∀ l : List (String × CloudShellInstance), (∃ p ∈ l, p.1 = k) →
    (dictInsert k v l).length = l.length := by
  intro l
  induction l with
  | nil => rintro ⟨p, hp, -⟩; simp at hp
  | cons q rest ih =>
    rintro ⟨p, hp, hpk⟩
    by_cases hq : q.1 = k
    · simp [dictInsert, hq]
    · simp only [dictInsert, if_neg hq, List.length_cons]
      have hpr : p ∈ rest := by
        cases List.mem_cons.mp hp with
        | inl h => exact absurd (h ▸ hpk) hq
        | inr h => exact h
      rw [ih ⟨p, hpr, hpk⟩]

lemma lookupInst_dictInsert (k : String) (v : CloudShellInstance) :
    ∀ l : List (String × CloudShellInstance),
    lookupInst k (dictInsert k v l) = some v := by
  intro l
  induction l with
  | nil => simp [dictInsert, lookupInst, List.find?]
  | cons q rest ih =>
    by_cases hq : q.1 = k
    · simp [dictInsert, hq, lookupInst, List.find?]
    · simp only [dictInsert, if_neg hq]
      simp only [lookupInst, List.find?] at ih ⊢
      rw [show (q.1 == k) = false by simpa using hq]
      exact ih

/-- C10: calling `add_instance` with a name already present in the fleet
replaces the existing worker's record with a fresh one — size of the fleet
unchanged, lookup under the name now yields a record with initial status
"inactive", empty error log and zeroed metrics (the prior state is
discarded) — and the operation signals no error. -/
theorem add_instance_replaces_existing (env name pid zone : String)
    (user : Option String) (insts : List (String × CloudShellInstance))
    (hmem : ∃ p ∈ insts, p.1 = name) :
    (add_instance env name pid zone user insts).length = insts.length
    ∧ lookupInst name (add_instance env name pid zone user insts)
      = some (mkCloudShellInstance name pid zone (user.getD env))
    ∧ (mkCloudShellInstance name pid zone (user.getD env)).status = .inactive
    ∧ (mkCloudShellInstance name pid zone (user.getD env)).errors = []
    ∧ (mkCloudShellInstance name pid zone (user.getD env)).total_keys_checked
      = 0
    ∧ (mkCloudShellInstance name pid zone (user.getD env)).keys_per_second
      = 0 := by
  refine ⟨dictInsert_length_of_mem name _ insts hmem,
    lookupInst_dictInsert name _ insts, rfl, rfl, rfl, rfl⟩

/-- C10 witness: re-adding the name "w" over a fleet already holding a
running, errored worker under "w" keeps the fleet size at 1 and installs a
fresh record. -/
theorem add_instance_replaces_existing_witness :
    (add_instance "env" "w" "p2" "z2" none
      [("w", { name := "w", project_id := "p", zone := "z", username := "u",
               status := .running, total_keys_checked := 5,
               errors := ["old error"] })]).length = 1
    ∧ lookupInst "w" (add_instance "env" "w" "p2" "z2" none
      [("w", { name := "w", project_id := "p", zone := "z", username := "u",
               status := .running, total_keys_checked := 5,
               errors := ["old error"] })])
      = some (mkCloudShellInstance "w" "p2" "z2" (Option.getD none "env"))
    ∧ (mkCloudShellInstance "w" "p2" "z2" (Option.getD none "env")).status
      = .inactive
    ∧ (mkCloudShellInstance "w" "p2" "z2" (Option.getD none "env")).errors
      = []
    ∧ (mkCloudShellInstance "w" "p2" "z2"
        (Option.getD none "env")).total_keys_checked = 0
    ∧ (mkCloudShellInstance "w" "p2" "z2"
        (Option.getD none "env")).keys_per_second = 0 :=
  add_instance_replaces_existing "env" "w" "p2" "z2" none
    [("w", { name := "w", project_id := "p", zone := "z", username := "u",
             status := .running, total_keys_checked := 5,
             errors := ["old error"] })]
    ⟨("w", { name := "w", project_id := "p", zone := "z", username := "u",
             status := .running, total_keys_checked := 5,
             errors := ["old error"] }), by simp, rfl⟩

end Coordinator
